import Mathlib

/-!
Verification development for the DarwiNN distributed neuro-evolution
optimizers (`darwinn/optimizers/dnn.py`).  The Python classes are shallowly
embedded: parameter tensors become lists of rationals, a model's parameter
list becomes a list of such tensors, stateful methods become functions on
explicit state records, and the SNES search-distribution update (which uses
`exp`/`log`/`sqrt`) is embedded over the reals.  External collaborators
(the distributed environment's `synchronize`, the torch gradient optimizer,
the noise generator's tensor contents) enter as explicit function or data
arguments, matching the interface boundary of the design.
-/

namespace DarwiNN

/-- Synchronization modes of the environment collaborator
(`NONE` / `AVERAGE` / `GATHER`). -/
inductive SyncMode where
  | NONE
  | AVERAGE
  | GATHER
deriving DecidableEq

/-- Noise layout modes (`darwinn.utils.noise.NoiseMode`). -/
inductive NoiseMode where
  | FULL
  | SLICE_H
  | SLICE_V
deriving DecidableEq

/-! ### Parameter marshalling (`DarwiNNOptimizer.update_model` / `update_theta`)

A model is embedded as the list of its parameter tensors, each tensor kept
in flattened form (`List ℚ`); `view_as` only reshapes, so the flat contents
are the whole state of a tensor. -/

/-- Successive slices `theta[idx:idx+numel(p)]` written over the parameter
list, as in the loop of `update_model` (dnn.py lines 119-126): each
parameter receives the next `numel` entries of `theta`. -/
def update_model_params : List ℚ → List (List ℚ) → List (List ℚ)
  | _, [] => []
  | theta, p :: ps => theta.take p.length :: update_model_params (theta.drop p.length) ps

/-- Successive slice writes `theta[idx:idx+numel(p)] = p.flatten()` of
`update_theta` (dnn.py lines 139-144): the flattened parameters overwrite
the front of `theta`, any tail of `theta` beyond the total parameter count
is left as is. -/
def update_theta_vec : List ℚ → List (List ℚ) → List ℚ
  | theta, [] => theta
  | theta, p :: ps => p ++ update_theta_vec (theta.drop p.length) ps

/-- Optimizer-owned marshalling state: the flat vector `theta`, the
evaluation model copy `model` (written by `update_model`), and the
canonical model `model_adapt` (read by `update_theta`). -/
structure OptimizerState where
  theta : List ℚ
  model : List (List ℚ)
  model_adapt : List (List ℚ)
deriving DecidableEq

/-- `count_num_parameters` (dnn.py lines 110-116): length of the
concatenation of all flattened parameters. -/
def num_parameters (model : List (List ℚ)) : ℕ := model.flatten.length

/-- `DarwiNNOptimizer.update_model(theta)` (dnn.py lines 119-126): writes
the slices of `theta` into `self.model` (the evaluation copy). -/
def update_model (st : OptimizerState) (theta : List ℚ) : OptimizerState :=
  { st with model := update_model_params theta st.model }

/-- `DarwiNNOptimizer.update_theta()` (dnn.py lines 139-144): refills
`self.theta` from `self.model_adapt`'s parameters. -/
def update_theta (st : OptimizerState) : OptimizerState :=
  { st with theta := update_theta_vec st.theta st.model_adapt }

/-! ### Population sizing (`DarwiNNOptimizer.__init__`, dnn.py lines 41-78) -/

/-- Active node count: `1` when `data_parallel`, else
`environment.number_nodes` (dnn.py lines 48-51). -/
def activeNodes (data_parallel : Bool) (number_nodes : ℕ) : ℕ :=
  if data_parallel then 1 else number_nodes

/-- "round down requested population to something divisible by number of
ranks": `(popsize // nodes) * nodes` (dnn.py line 53). -/
def constructedPopsize (requested nodes : ℕ) : ℕ := (requested / nodes) * nodes

/-- `self.folds = self.popsize // self.nodes` (dnn.py line 55). -/
def constructedFolds (requested nodes : ℕ) : ℕ := constructedPopsize requested nodes / nodes

/-- Chunk size used by `torch.chunk(t, chunks, dim=0)`: `ceil(len/chunks)`. -/
def chunkSize (len chunks : ℕ) : ℕ := (len + chunks - 1) / chunks

/-- Split a list into up to `chunks` pieces of `c` elements each (the last
piece may be shorter, and trailing pieces are omitted once the list is
exhausted), following `torch.chunk` semantics along dim 0. -/
def splitChunks : ℕ → ℕ → List ℚ → List (List ℚ)
  | 0, _, _ => []
  | _ + 1, _, [] => []
  | chunks + 1, c, l => l.take c :: splitChunks chunks c (l.drop c)

/-- `torch.chunk(fitness_global, nodes, dim=0)` (dnn.py line 59): the
per-node fold views of the fitness vector. -/
def fitnessFolds (fitness_global : List ℚ) (nodes : ℕ) : List (List ℚ) :=
  splitChunks nodes (chunkSize fitness_global.length nodes) fitness_global

/-- Configuration state established by `DarwiNNOptimizer.__init__`
(dnn.py lines 41-78); tensor allocation is reflected by the sizes recorded
here.  The constructor has no raise statement: it is a total function. -/
structure DarwiNNBaseState where
  nodes : ℕ
  popsize : ℕ
  folds : ℕ
  num_parameters : ℕ
  fitness_sync_mode : SyncMode
  generation : ℕ
deriving DecidableEq

/-- `DarwiNNOptimizer.__init__` (dnn.py lines 41-78), with the model
abstracted to its flattened parameter count `np`. -/
def darwinnInit (number_nodes : ℕ) (data_parallel : Bool) (requested np : ℕ) :
    DarwiNNBaseState :=
  let nodes := activeNodes data_parallel number_nodes
  { nodes := nodes
    popsize := constructedPopsize requested nodes
    folds := constructedFolds requested nodes
    num_parameters := np
    fitness_sync_mode := if data_parallel then SyncMode.AVERAGE else SyncMode.GATHER
    generation := 1 }

/-! ### Genetic-algorithm strategy (`GAOptimizer`, dnn.py lines 243-285) -/

/-- `int(self.popsize*elite_ratio)` (dnn.py line 248): the float product
truncated to an integer (equal to the floor for the non-negative ratios in
use), clamped into ℕ. -/
def numElites (popsize : ℕ) (ratio : ℚ) : ℕ := ⌊(popsize : ℚ) * ratio⌋.toNat

/-- Comparison used by `fitness_global.sort()`: ascending order on the
fitness value attached to each population index. -/
def fitLE (a b : ℕ × ℚ) : Prop := a.2 ≤ b.2

instance : DecidableRel fitLE := fun a b => inferInstanceAs (Decidable (a.2 ≤ b.2))

instance : IsTotal (ℕ × ℚ) fitLE := ⟨fun a b => le_total a.2 b.2⟩

instance : IsTrans (ℕ × ℚ) fitLE := ⟨fun _ _ _ h h' => le_trans h h'⟩

/-- `fitness_sorted, ind = self.fitness_global.sort()` (dnn.py line 255),
embedded as a sort of (index, value) pairs by ascending value. -/
def gaSortPairs (fitness : List ℚ) : List (ℕ × ℚ) :=
  List.insertionSort fitLE fitness.enum

/-- The index tensor `ind` returned by the sort (dnn.py line 255). -/
def gaSortIndices (fitness : List ℚ) : List ℕ :=
  (gaSortPairs fitness).map Prod.fst

/-- `torch.index_select(self.population, 0, ind[:self.num_elites])`
(dnn.py line 257): the population rows at the first `num_elites` sorted
indices become the elite table. -/
def gaSelect (population : List (List ℚ)) (fitness : List ℚ) (num_elites : ℕ) :
    List (List ℚ) :=
  ((gaSortIndices fitness).take num_elites).map (fun i => population.getD i [])

/-- State added by `GAOptimizer.__init__` (dnn.py lines 245-251) on top of
the base optimizer state. -/
structure GAState where
  base : DarwiNNBaseState
  fold_offset : ℕ
  num_elites : ℕ
  elites : List (List ℚ)
  population : List (List ℚ)
  sigma : ℚ
deriving DecidableEq

/-- `GAOptimizer.__init__` (dnn.py lines 245-251).  The
`mutation_probability` argument is accepted but, exactly as in the source
constructor, never read: no field depends on it. -/
def gaInit (number_nodes rank : ℕ) (data_parallel : Bool) (requested np : ℕ)
    (sigma : ℚ) ( elite_ratio : ℚ) ( mutation_probability : ℚ) : GAState :=
  let base := darwinnInit number_nodes data_parallel requested np
  { base := base
    fold_offset := rank * base.folds
    num_elites := numElites base.popsize elite_ratio
    elites := List.replicate (numElites base.popsize elite_ratio) (List.replicate np 0)
    population := List.replicate base.popsize (List.replicate np 0)
    sigma := sigma }

/-- Random draws consumed by one offspring of `GAOptimizer.mutate`
(dnn.py lines 264-275): the two parent indices from `torch.randint`, the
0/1 crossover mask `parent1_select`, and the `torch.randn` noise vector. -/
structure GARand where
  parents : ℕ × ℕ
  mask : List ℚ
  noise : List ℚ

/-- One generated (non-elite) population row of `GAOptimizer.mutate`
(dnn.py lines 264-275): `elites[idx1] * parent1_select +
elites[idx2] * parent2_select + randn * sigma`, where
`parent2_select = (parent1_select - 1) * (-1)`. -/
def gaOffspring (elites : List (List ℚ)) (sigma : ℚ) (r : GARand) : List ℚ :=
  let parent_1 := elites.getD r.parents.1 []
  let parent_2 := elites.getD r.parents.2 []
  let parent1_select := r.mask
  let parent2_select := r.mask.map (fun x => (x - 1) * (-1))
  let cross := List.zipWith (fun a b => a + b)
    (List.zipWith (fun a b => a * b) parent_1 parent1_select)
    (List.zipWith (fun a b => a * b) parent_2 parent2_select)
  List.zipWith (fun a b => a + b) cross (r.noise.map (fun x => x * sigma))

/-- `GAOptimizer.mutate` (dnn.py lines 259-275): elites are copied
unchanged into the first `num_elites` slots, the remaining
`popsize - num_elites` slots are freshly generated offspring, with the
random draws passed explicitly. -/
def gaMutate (st : GAState) (rand : List GARand) : GAState :=
  let inherited := st.elites.take st.num_elites
  let generated :=
    (rand.take (st.population.length - st.num_elites)).map (gaOffspring st.elites st.sigma)
  { st with population := inherited ++ generated }

/-- `GAOptimizer.select` (dnn.py lines 253-257) as a state update. -/
def gaSelectOp (st : GAState) (fitness_global : List ℚ) : GAState :=
  { st with elites := gaSelect st.population fitness_global st.num_elites }

/-- `GAOptimizer.adapt` (dnn.py lines 277-278): a no-op. -/
def gaAdapt (st : GAState) : GAState := st

/-- The population row indices read by `GAOptimizer.eval_fitness`
(dnn.py lines 280-285): `self.population[self.fold_offset + i]` for
`i` in `range(self.folds)`. -/
def gaEvalAccesses (st : GAState) : List ℕ :=
  (List.range st.base.folds).map (fun i => st.fold_offset + i)

/-! ### OpenAI-ES gradient combination (`OpenAIESOptimizer.adapt`,
dnn.py lines 220-230) -/

/-- Dot product of two equal-length vectors. -/
def dot (x y : List ℚ) : ℚ := (List.zipWith (fun a b => a * b) x y).sum

/-- `torch.mv`: matrix-vector product, one dot product per matrix row. -/
def mv (a : List (List ℚ)) (x : List ℚ) : List ℚ := a.map (fun row => dot row x)

/-- `tensor.t()`: transpose of a `popsize × ncols` matrix; entry `j` of
the transpose is the `j`-th column. -/
def transposeM (ncols : ℕ) (a : List (List ℚ)) : List (List ℚ) :=
  (List.range ncols).map (fun j => a.map (fun row => row.getD j 0))

/-- State touched by `OpenAIESOptimizer.adapt`: the flat vector `theta`,
the canonical model `model_adapt`, and the gradient buffer. -/
structure AdaptState where
  theta : List ℚ
  model_adapt : List (List ℚ)
  gradient : List ℚ

/-- `OpenAIESOptimizer.adapt` (dnn.py lines 220-230): gradient :=
`mv(update_noise.t(), fitness_shaped)`; the cross-node combine
(`environment.synchronize` with the configured gradient sync mode,
including the per-node gradient buffer views) is the environment
collaborator, passed as `env_sync`; the combined gradient is divided by
`sigma * popsize`; `update_grad(-gradient)` plus `optimizer.step()` is the
external torch optimizer, passed as `opt_step` acting on the canonical
parameters; finally `update_theta()` re-extracts `theta`. -/
def openAIES_adapt (env_sync : SyncMode → List ℚ → List ℚ)
    (opt_step : List (List ℚ) → List ℚ → List (List ℚ))
    (gradient_sync_mode : SyncMode) (update_noise : List (List ℚ))
    (fitness_shaped : List ℚ) (sigma : ℚ) (popsize np : ℕ)
    (st : AdaptState) : AdaptState :=
  let g := mv (transposeM np update_noise) fitness_shaped
  let g_sync := env_sync gradient_sync_mode g
  let g_norm := g_sync.map (fun v => v / (sigma * (popsize : ℚ)))
  let model' := opt_step st.model_adapt (g_norm.map (fun v => -v))
  { theta := update_theta_vec st.theta model'
    model_adapt := model'
    gradient := g_norm }

/-! ### Construction-time configuration (`OpenAIESOptimizer.__init__`,
dnn.py lines 156-215, and `SNESOptimizer.__init__`, lines 289-296) -/

/-- Modelled from the spec: the construction of the noise generator
(`darwinn.utils.noise.NoiseGenerator`, whose module is not part of the
sources here).  Per the design (§4.2), construction records the global
parameters `popsize`, `num_parameters`, node count, local rank, the
distribution and sampling selectors, and the mutate/update layout modes;
no validation or failure at construction is specified. -/
structure NoiseGeneratorCfg where
  popsize : ℕ
  num_parameters : ℕ
  number_nodes : ℕ
  rank : ℕ
  distribution : String
  sampling : String
  mutate_mode : NoiseMode
  update_mode : NoiseMode
deriving DecidableEq

/-- Configuration state established by `OpenAIESOptimizer.__init__`
(dnn.py lines 156-215). -/
structure OpenAIESState where
  base : DarwiNNBaseState
  sigma : ℚ
  distribution : String
  sampling : String
  semi_updates : Bool
  orthogonal_updates : Bool
  fitness_sync_mode : SyncMode
  gradient_sync_mode : SyncMode
  update_noise_mode : NoiseMode
  mutate_noise_mode : NoiseMode
  gradients_len : ℕ
  epsilon : NoiseGeneratorCfg
deriving DecidableEq

/-- `OpenAIESOptimizer.__init__` (dnn.py lines 156-215).  The two raise
sites are embedded as `Except.error`: the data-parallel versus
semi or orthogonal updates check (lines 163-164, textually repeated at
lines 177-178) and the `raise ValueError` for an unsupported distribution
name (lines 210-215), which the source reaches only after configuring all
modes, hence it is checked last here as well. -/
def openAIESInit (number_nodes rank : ℕ) (distribution sampling : String)
    (sigma : ℚ) (requested np : ℕ)
    (data_parallel semi_updates orthogonal_updates : Bool) :
    Except String OpenAIESState :=
  let base := darwinnInit number_nodes data_parallel requested np
  if data_parallel && (orthogonal_updates || semi_updates) then
    Except.error "Semi- or Orthogonal Theta updates cannot be performed in data-parallel mode"
  else
    let gradient_chunk_size := (np + base.nodes - 1) / base.nodes
    let gradients_len := if orthogonal_updates then gradient_chunk_size * base.nodes else np
    let modes :=
      if semi_updates then
        (SyncMode.NONE, SyncMode.AVERAGE, NoiseMode.SLICE_H)
      else if orthogonal_updates then
        (base.fitness_sync_mode, SyncMode.GATHER, NoiseMode.SLICE_V)
      else
        (base.fitness_sync_mode, SyncMode.NONE, NoiseMode.FULL)
    let mutate_noise_mode := if data_parallel then NoiseMode.FULL else NoiseMode.SLICE_H
    let st : OpenAIESState :=
      { base := base
        sigma := sigma
        distribution := distribution
        sampling := sampling
        semi_updates := semi_updates
        orthogonal_updates := orthogonal_updates
        fitness_sync_mode := modes.1
        gradient_sync_mode := modes.2.1
        update_noise_mode := modes.2.2
        mutate_noise_mode := mutate_noise_mode
        gradients_len := gradients_len
        epsilon :=
          { popsize := base.popsize
            num_parameters := np
            number_nodes := number_nodes
            rank := rank
            distribution := distribution
            sampling := sampling
            mutate_mode := mutate_noise_mode
            update_mode := modes.2.2 } }
    if distribution = "Gaussian" then Except.ok st
    else if distribution = "Uniform" then Except.ok st
    else Except.error "ValueError"

/-! ### SNES search-distribution update (`SNESOptimizer`, dnn.py
lines 287-319), embedded over the reals because it uses `log`, `sqrt`
and `exp`. -/

/-- `self.lr_theta = torch.tensor(0.001)` (dnn.py line 294). -/
noncomputable def lr_theta : ℝ := 0.001

/-- `self.lr_sigma = (3 + log(num_parameters)) / (5 * sqrt(num_parameters))`
(dnn.py line 295), computed once at construction. -/
noncomputable def lr_sigma (np : ℕ) : ℝ :=
  (3 + Real.log np) / (5 * Real.sqrt np)

/-- Search-distribution state of the SNES optimizer: the location `theta`
and the per-parameter width `sigma`. -/
structure SNESDistState where
  theta : List ℝ
  sigma : List ℝ

/-- State established by `SNESOptimizer.__init__` (dnn.py lines 289-296)
on top of the OpenAI-ES state: `sigma` becomes a vector filled with the
scalar argument, `lr_theta` and `lr_sigma` are fixed, and `theta` is reset
to zeros. -/
structure SNESState where
  es : OpenAIESState
  dist : SNESDistState
  lr_theta : ℝ
  lr_sigma : ℝ

/-- `SNESOptimizer.__init__` (dnn.py lines 289-296): runs the OpenAI-ES
constructor (so it raises in exactly the same cases), then initializes the
search distribution; the extra initialization has no raise site. -/
noncomputable def snesInit (number_nodes rank : ℕ) (distribution sampling : String)
    (sigma : ℚ) (requested np : ℕ)
    (data_parallel semi_updates orthogonal_updates : Bool) :
    Except String SNESState :=
  (openAIESInit number_nodes rank distribution sampling sigma requested np
      data_parallel semi_updates orthogonal_updates).map
    (fun es =>
      { es := es
        dist :=
          { theta := List.replicate np 0
            sigma := List.replicate np (sigma : ℝ) }
        lr_theta := lr_theta
        lr_sigma := lr_sigma np })

/-- `SNESOptimizer.update_dist` (dnn.py lines 313-319):
`theta_gradient /= popsize`; `theta_gradient /= sigma` (elementwise);
`theta += lr_theta * theta_gradient`;
`exponent = 0.5 * lr_sigma * sigma_gradient`;
`sigma *= exp(exponent)`.  The learning rates are passed in as the
constants fixed at construction. -/
noncomputable def update_dist (popsize : ℕ) (lrt lrs : ℝ)
    (theta_gradient sigma_gradient : List ℝ) (st : SNESDistState) :
    SNESDistState :=
  let tg1 := theta_gradient.map (fun g => g / (popsize : ℝ))
  let tg2 := List.zipWith (fun g s => g / s) tg1 st.sigma
  let theta' := List.zipWith (fun t g => t + lrt * g) st.theta tg2
  let exponent := sigma_gradient.map (fun g => 0.5 * lrs * g)
  let sigma' := List.zipWith (fun s e => s * Real.exp e) st.sigma exponent
  { theta := theta', sigma := sigma' }

/-! ### Marshalling lemmas -/

/-- Writing a vector of matching total length over a parameter list and
flattening back recovers the vector: the unflatten/flatten mapping
round-trips on one and the same model. -/
theorem flatten_update_model_params (m : List (List ℚ)) (v : List ℚ)
    (hv : v.length = m.flatten.length) :
    (update_model_params v m).flatten = v := by
  induction m generalizing v with
  | nil =>
    simp only [List.flatten_nil, List.length_nil] at hv
    simp [update_model_params, List.length_eq_zero.mp hv]
  | cons p ps ih =>
    simp only [List.flatten_cons, List.length_append] at hv
    have hd : (v.drop p.length).length = ps.flatten.length := by
      simp [List.length_drop, hv]
    simp only [update_model_params, List.flatten_cons, ih _ hd,
      List.take_append_drop]

/-- The successive slice writes of `update_theta` produce the flattened
parameters followed by whatever tail of the old vector they never touch. -/
theorem update_theta_vec_eq (m : List (List ℚ)) (theta : List ℚ) :
    update_theta_vec theta m = m.flatten ++ theta.drop m.flatten.length := by
  induction m generalizing theta with
  | nil => simp [update_theta_vec]
  | cons p ps ih =>
    simp only [update_theta_vec, List.flatten_cons, ih, List.drop_drop,
      List.length_append, List.append_assoc]

/-- When the vector has exactly the model's parameter count, `update_theta`
yields precisely the flattened parameters. -/
theorem update_theta_vec_eq_flatten (m : List (List ℚ)) (theta : List ℚ)
    (ht : theta.length = m.flatten.length) :
    update_theta_vec theta m = m.flatten := by
  rw [update_theta_vec_eq, List.drop_eq_nil_of_le (le_of_eq ht),
    List.append_nil]

/-- C1: the claim that `update_model(v)` followed by `update_theta()`
leaves `theta` equal to `v` fails on the code: `update_model` writes the
evaluation copy `self.model`, while `update_theta` reads
`self.model_adapt`.  Concretely, with both model copies holding `[0]` and
`v = [1]`, the resulting `theta` is `[0]`, not `v`. -/
theorem roundtrip_claim_counterexample :
    (update_theta (update_model ⟨[0], [[0]], [[0]]⟩ [1])).theta ≠ [1] := by
  decide

/-- C1 (amended): for every state and vector `v` of length
`num_parameters`, `update_model(v)` followed by `update_theta()` leaves
`theta` equal to the flattening of `model_adapt`'s parameters — the same
value `update_theta()` alone produces, independent of `v`; the
flatten/unflatten mapping does round-trip on the single model it is
applied to: after `update_model(v)`, flattening the evaluation model's
parameters yields exactly `v`. -/
theorem update_model_update_theta_roundtrip (st : OptimizerState) (v : List ℚ)
    (hv : v.length = num_parameters st.model)
    (ht : st.theta.length = num_parameters st.model_adapt) :
    ((update_model st v).model).flatten = v ∧
    (update_theta (update_model st v)).theta = st.model_adapt.flatten ∧
    (update_theta (update_model st v)).theta = (update_theta st).theta := by
  refine ⟨flatten_update_model_params st.model v hv, ?_, rfl⟩
  exact update_theta_vec_eq_flatten st.model_adapt st.theta ht

/-- Witness for the amended C1 at a concrete state. -/
theorem update_model_update_theta_roundtrip_witness :
    (([(7:ℚ)].length = num_parameters [[(0:ℚ)]]) ∧
      ([(0:ℚ)].length = num_parameters [[(5:ℚ)]])) ∧
    (((update_model ⟨[0], [[0]], [[5]]⟩ [7]).model).flatten = [(7:ℚ)] ∧
      (update_theta (update_model ⟨[0], [[0]], [[5]]⟩ [7])).theta = [[(5:ℚ)]].flatten ∧
      (update_theta (update_model ⟨[0], [[0]], [[5]]⟩ [7])).theta =
        (update_theta ⟨[0], [[0]], [[5]]⟩).theta) :=
  ⟨⟨by decide, by decide⟩,
    update_model_update_theta_roundtrip ⟨[0], [[0]], [[5]]⟩ [7] (by decide) (by decide)⟩

/-- C8: `update_model(v)` writes only the evaluation model copy: for any
vector `v` of length `num_parameters`, `theta` and the canonical model
`model_adapt`'s parameters are unchanged afterwards. -/
theorem update_model_frame (st : OptimizerState) (v : List ℚ)
    (hv : v.length = num_parameters st.model) :
    (update_model st v).theta = st.theta ∧
    (update_model st v).model_adapt = st.model_adapt :=
  ⟨rfl, rfl⟩

/-- Witness for C8 at a concrete state. -/
theorem update_model_frame_witness :
    ([(7:ℚ)].length = num_parameters [[(0:ℚ)]]) ∧
    ((update_model ⟨[3], [[0]], [[5]]⟩ [7]).theta = [(3:ℚ)] ∧
      (update_model ⟨[3], [[0]], [[5]]⟩ [7]).model_adapt = [[(5:ℚ)]]) :=
  ⟨by decide, update_model_frame ⟨[3], [[0]], [[5]]⟩ [7] (by decide)⟩

/-! ### Population sizing lemmas -/

/-- When the node count divides the vector length, `torch.chunk`'s chunk
size `ceil(len/chunks)` is exactly `len / chunks`. -/
theorem chunkSize_of_dvd (p n : ℕ) (hn : 0 < n) (hd : n ∣ p) :
    chunkSize p n = p / n := by
  obtain ⟨q, rfl⟩ := hd
  unfold chunkSize
  have hc : n * q = q * n := Nat.mul_comm n q
  have e1 : n * q + n - 1 = (n - 1) + q * n := by omega
  rw [e1, Nat.add_mul_div_right _ _ hn, Nat.div_eq_of_lt (by omega),
    Nat.mul_div_cancel_left _ hn, Nat.zero_add]

/-- Every chunk of a list of length `k * c`, split into `k` chunks of `c`,
has length exactly `c`. -/
theorem splitChunks_mem_length (k : ℕ) (c : ℕ) :
    ∀ l : List ℚ, l.length = k * c → ∀ ch ∈ splitChunks k c l, ch.length = c := by
  induction k with
  | zero => intro l hl ch h; simp [splitChunks] at h
  | succ k ih =>
    intro l hl ch h
    cases l with
    | nil => simp [splitChunks] at h
    | cons a t =>
      simp only [splitChunks, List.mem_cons] at h
      have hlen : (a :: t).length = k * c + c := by
        rw [hl, Nat.succ_mul]
      rcases h with h | h
      · rw [h, List.length_take, hlen]
        omega
      · exact ih ((a :: t).drop c) (by rw [List.length_drop, hlen]; omega) ch h

/-- C3: the claim that construction yields `popsize ≥ 1` or raises fails
on the code: the base constructor has no raise path, and requesting a
population of 1 on 2 nodes silently rounds `popsize` down to
`(1 // 2) * 2 = 0`. -/
theorem popsize_zero_counterexample :
    ¬ (1 ≤ (darwinnInit 2 false 1 3).popsize) := by
  decide

/-- C3 (amended): construction never raises on account of the population
size; the constructed `popsize` is the request rounded down to a multiple
of the active node count, and it is at least 1 exactly when the request is
at least the node count — so it is silently rounded to zero whenever the
request is below the node count. -/
theorem constructedPopsize_pos_iff (number_nodes requested np : ℕ) (dp : Bool)
    (hn : 1 ≤ activeNodes dp number_nodes) :
    (darwinnInit number_nodes dp requested np).popsize =
      constructedPopsize requested (activeNodes dp number_nodes) ∧
    (1 ≤ (darwinnInit number_nodes dp requested np).popsize ↔
      activeNodes dp number_nodes ≤ requested) := by
  refine ⟨rfl, ?_⟩
  show 1 ≤ constructedPopsize requested (activeNodes dp number_nodes) ↔ _
  set n := activeNodes dp number_nodes with hn_def
  unfold constructedPopsize
  have hdiv := Nat.one_le_div_iff (show 0 < n from hn) (a := requested)
  constructor
  · intro h1
    rcases Nat.eq_zero_or_pos (requested / n) with h0 | hpos
    · rw [h0, Nat.zero_mul] at h1
      omega
    · exact hdiv.mp hpos
  · intro hr
    have h1 : 1 ≤ requested / n := hdiv.mpr hr
    calc 1 = 1 * 1 := by ring
    _ ≤ requested / n * n := Nat.mul_le_mul h1 hn

/-- Witness for the amended C3: one node count that divides the request
and one that does not. -/
theorem constructedPopsize_pos_iff_witness :
    (1 ≤ activeNodes false 2) ∧
    ((darwinnInit 2 false 5 3).popsize =
      constructedPopsize 5 (activeNodes false 2) ∧
    (1 ≤ (darwinnInit 2 false 5 3).popsize ↔ activeNodes false 2 ≤ 5)) :=
  ⟨by decide, constructedPopsize_pos_iff 2 5 3 false (by decide)⟩

/-- C4: for every requested popsize and active node count `n` (1 in
data-parallel mode, the environment's node count otherwise), construction
sets the effective popsize to the largest multiple of `n` not exceeding
the request, and every fold of a fitness vector sized with that popsize
has identical length `popsize / n`. -/
theorem popsize_fold_invariant (number_nodes requested np n : ℕ) (dp : Bool)
    (hact : n = activeNodes dp number_nodes) (hn : 1 ≤ n) :
    (darwinnInit number_nodes dp requested np).popsize =
      constructedPopsize requested n ∧
    n ∣ constructedPopsize requested n ∧
    constructedPopsize requested n ≤ requested ∧
    (∀ m, n ∣ m → m ≤ requested → m ≤ constructedPopsize requested n) ∧
    (∀ f : List ℚ, f.length = constructedPopsize requested n →
      ∀ fold ∈ fitnessFolds f n, fold.length = constructedPopsize requested n / n) := by
  subst hact
  refine ⟨rfl, dvd_mul_left _ _, Nat.div_mul_le_self _ _, ?_, ?_⟩
  · intro m hm hle
    obtain ⟨q, rfl⟩ := hm
    rw [Nat.mul_comm] at hle ⊢
    exact Nat.mul_le_mul_right _
      ((Nat.le_div_iff_mul_le (show 0 < _ from hn)).mpr hle)
  · intro f hf fold hfold
    have hd : activeNodes dp number_nodes ∣ constructedPopsize requested (activeNodes dp number_nodes) :=
      dvd_mul_left _ _
    have hcs : chunkSize f.length (activeNodes dp number_nodes) =
        constructedPopsize requested (activeNodes dp number_nodes) / activeNodes dp number_nodes := by
      rw [hf]
      exact chunkSize_of_dvd _ _ hn hd
    have hflen : f.length =
        activeNodes dp number_nodes *
          (constructedPopsize requested (activeNodes dp number_nodes) / activeNodes dp number_nodes) := by
      rw [hf, Nat.mul_div_cancel' hd]
    unfold fitnessFolds at hfold
    rw [hcs] at hfold
    exact splitChunks_mem_length _ _ f hflen fold hfold

/-- Witness for C4 at a concrete configuration (request 5 on 2 nodes,
population rounded to 4, folds of length 2). -/
theorem popsize_fold_invariant_witness :
    (2 = activeNodes false 2 ∧ 1 ≤ 2) ∧
    ((darwinnInit 2 false 5 3).popsize = constructedPopsize 5 2 ∧
    2 ∣ constructedPopsize 5 2 ∧
    constructedPopsize 5 2 ≤ 5 ∧
    (∀ m, 2 ∣ m → m ≤ 5 → m ≤ constructedPopsize 5 2) ∧
    (∀ f : List ℚ, f.length = constructedPopsize 5 2 →
      ∀ fold ∈ fitnessFolds f 2, fold.length = constructedPopsize 5 2 / 2)) :=
  ⟨⟨by decide, by decide⟩, popsize_fold_invariant 2 5 3 2 false (by decide) (by decide)⟩

/-! ### GA fold-access lemmas -/

/-- In population-parallel mode a node with `rank < nodes` only touches
indices inside the population table. -/
theorem fold_access_lt (nodes rank requested i : ℕ) (hr : rank < nodes)
    (hi : i < constructedFolds requested nodes) :
    rank * constructedFolds requested nodes + i < constructedPopsize requested nodes := by
  have hpos : 0 < nodes := by omega
  unfold constructedFolds constructedPopsize at *
  rw [Nat.mul_div_cancel _ hpos] at hi ⊢
  calc rank * (requested / nodes) + i < rank * (requested / nodes) + requested / nodes := by
        omega
  _ = (rank + 1) * (requested / nodes) := by ring
  _ ≤ nodes * (requested / nodes) := Nat.mul_le_mul_right _ (by omega)
  _ = requested / nodes * nodes := Nat.mul_comm _ _

/-- Rank 0 always stays inside the population table. -/
theorem fold_access_lt_zero (nodes requested i : ℕ)
    (hi : i < constructedFolds requested nodes) :
    i < constructedPopsize requested nodes := by
  unfold constructedFolds constructedPopsize at *
  rcases Nat.eq_zero_or_pos nodes with h0 | hpos
  · subst h0
    simp at hi
  · rw [Nat.mul_div_cancel _ hpos] at hi
    calc i < requested / nodes := hi
    _ ≤ requested / nodes * nodes := Nat.le_mul_of_pos_right _ hpos

/-- C9: `GAOptimizer.eval_fitness` reads `population[fold_offset + i]`
in bounds only when `data_parallel` is false or the node's rank is 0.  In
data-parallel mode the node count is forced to 1 so `folds = popsize` and
`fold_offset = rank * popsize`; on a node of rank at least 1 with a
non-empty population the very first access `population[fold_offset]`
indexes past the end of the `popsize`-row population table, whereas
without data-parallelism every node of valid rank (and rank 0 always)
stays in bounds. -/
theorem gaEval_access_bounds (number_nodes rank requested np : ℕ)
    (sigma ratio mp : ℚ) (dp : Bool) :
    (dp = true → 1 ≤ rank →
      1 ≤ (gaInit number_nodes rank dp requested np sigma ratio mp).population.length →
      ¬ ((gaInit number_nodes rank dp requested np sigma ratio mp).fold_offset <
        (gaInit number_nodes rank dp requested np sigma ratio mp).population.length)) ∧
    (dp = false → rank < number_nodes →
      ∀ a ∈ gaEvalAccesses (gaInit number_nodes rank dp requested np sigma ratio mp),
        a < (gaInit number_nodes rank dp requested np sigma ratio mp).population.length) ∧
    (rank = 0 →
      ∀ a ∈ gaEvalAccesses (gaInit number_nodes rank dp requested np sigma ratio mp),
        a < (gaInit number_nodes rank dp requested np sigma ratio mp).population.length) := by
  refine ⟨fun hdp h1 hp hlt => ?_, fun hdp hr a ha => ?_, fun hr a ha => ?_⟩
  · subst hdp
    simp only [gaInit, darwinnInit, activeNodes, if_pos, List.length_replicate,
      constructedFolds, constructedPopsize, Nat.div_one, Nat.mul_one] at hp hlt
    have : requested ≤ rank * requested := Nat.le_mul_of_pos_left _ (by omega)
    omega
  · subst hdp
    simp only [gaInit, darwinnInit, gaEvalAccesses, activeNodes, if_neg,
      Bool.false_eq_true, not_false_iff, List.length_replicate, List.mem_map,
      List.mem_range] at ha ⊢
    obtain ⟨i, hi, rfl⟩ := ha
    exact fold_access_lt number_nodes rank requested i hr hi
  · subst hr
    simp only [gaInit, darwinnInit, gaEvalAccesses, List.length_replicate,
      List.mem_map, List.mem_range, Nat.zero_mul, Nat.zero_add] at ha ⊢
    obtain ⟨i, hi, rfl⟩ := ha
    exact fold_access_lt_zero _ requested i hi

/-- Witness for C9: rank 1 of 2 nodes in data-parallel mode with a
4-member population is out of bounds immediately; the same configuration
without data-parallelism stays in bounds. -/
theorem gaEval_access_bounds_witness :
    ((true = true ∧ 1 ≤ 1 ∧
        1 ≤ (gaInit 2 1 true 4 3 1 (1/2) (1/100)).population.length) ∧
      ¬ ((gaInit 2 1 true 4 3 1 (1/2) (1/100)).fold_offset <
        (gaInit 2 1 true 4 3 1 (1/2) (1/100)).population.length)) ∧
    ((false = false ∧ 1 < 2) ∧
      ∀ a ∈ gaEvalAccesses (gaInit 2 1 false 4 3 1 (1/2) (1/100)),
        a < (gaInit 2 1 false 4 3 1 (1/2) (1/100)).population.length) :=
  ⟨⟨⟨rfl, by decide, by decide⟩,
      (gaEval_access_bounds 2 1 4 3 1 (1/2) (1/100) true).1 rfl (by decide) (by decide)⟩,
    ⟨⟨rfl, by decide⟩,
      (gaEval_access_bounds 2 1 4 3 1 (1/2) (1/100) false).2.1 rfl (by decide)⟩⟩

/-- C10: the GA optimizer's behavior is independent of its
`mutation_probability` argument: two instances constructed with identical
arguments except `mutation_probability` are identical states, and every
operation (mutate, select, adapt, the fitness-evaluation accesses) on
them, given identical random draws and inputs, produces identical
results — the parameter is accepted at construction but never read. -/
theorem mutation_probability_unused (number_nodes rank requested np : ℕ)
    (sigma ratio mp1 mp2 : ℚ) (dp : Bool) (rand : List GARand)
    (fitness : List ℚ) :
    gaInit number_nodes rank dp requested np sigma ratio mp1 =
      gaInit number_nodes rank dp requested np sigma ratio mp2 ∧
    gaMutate (gaInit number_nodes rank dp requested np sigma ratio mp1) rand =
      gaMutate (gaInit number_nodes rank dp requested np sigma ratio mp2) rand ∧
    gaSelectOp (gaMutate (gaInit number_nodes rank dp requested np sigma ratio mp1) rand) fitness =
      gaSelectOp (gaMutate (gaInit number_nodes rank dp requested np sigma ratio mp2) rand) fitness ∧
    gaAdapt (gaSelectOp (gaMutate (gaInit number_nodes rank dp requested np sigma ratio mp1) rand) fitness) =
      gaAdapt (gaSelectOp (gaMutate (gaInit number_nodes rank dp requested np sigma ratio mp2) rand) fitness) ∧
    gaEvalAccesses (gaInit number_nodes rank dp requested np sigma ratio mp1) =
      gaEvalAccesses (gaInit number_nodes rank dp requested np sigma ratio mp2) :=
  ⟨rfl, rfl, rfl, rfl, rfl⟩

/-! ### GA selection lemmas -/

theorem gaSortPairs_perm (f : List ℚ) : (gaSortPairs f).Perm f.enum :=
  List.perm_insertionSort fitLE f.enum

theorem gaSortPairs_sorted (f : List ℚ) : List.Sorted fitLE (gaSortPairs f) :=
  List.sorted_insertionSort fitLE f.enum

/-- Every sorted pair is an (index, value) pair of the fitness vector. -/
theorem mem_gaSortPairs {f : List ℚ} {p : ℕ × ℚ} (h : p ∈ gaSortPairs f) :
    f[p.1]? = some p.2 :=
  List.mem_enum_iff_getElem?.mp ((gaSortPairs_perm f).mem_iff.mp h)

theorem gaSortPairs_length (f : List ℚ) : (gaSortPairs f).length = f.length := by
  rw [(gaSortPairs_perm f).length_eq, List.enum_length]

theorem gaSortIndices_length (f : List ℚ) : (gaSortIndices f).length = f.length := by
  unfold gaSortIndices
  rw [List.length_map, gaSortPairs_length]

/-- Values in the first `k` sorted pairs are below values in the rest. -/
theorem gaSortPairs_take_drop_le (f : List ℚ) (k : ℕ) :
    ∀ p ∈ (gaSortPairs f).take k, ∀ q ∈ (gaSortPairs f).drop k, p.2 ≤ q.2 := by
  have h : List.Pairwise fitLE (gaSortPairs f) := gaSortPairs_sorted f
  rw [← List.take_append_drop k (gaSortPairs f)] at h
  exact fun p hp q hq => (List.pairwise_append.mp h).2.2 p hp q hq

/-- The membership value of a sorted pair read back through `getD`. -/
theorem getD_of_mem_gaSortPairs {f : List ℚ} {p : ℕ × ℚ}
    (h : p ∈ gaSortPairs f) : f.getD p.1 0 = p.2 := by
  rw [List.getD_eq_getElem?_getD, mem_gaSortPairs h, Option.getD_some]

/-- `int(popsize * elite_ratio)` never exceeds `popsize` for a ratio of at
most one. -/
theorem numElites_le (L : ℕ) (r : ℚ) (h1 : r ≤ 1) : numElites L r ≤ L := by
  unfold numElites
  rw [Int.toNat_le]
  calc ⌊(L : ℚ) * r⌋ ≤ ⌊(L : ℚ)⌋ :=
        Int.floor_le_floor (mul_le_of_le_one_right (Nat.cast_nonneg L) h1)
  _ = (L : ℤ) := Int.floor_natCast L

/-- C5: the claim fails at `popsize = 2`, `elite_ratio = 0.1`: the elite
count truncates to 0, `select()` retains no rows at all, and in particular
the best individual (row `[2]`, fitness 3) is not present in the elite
set. -/
theorem gaSelect_claim_counterexample :
    numElites 2 (1/10) = 0 ∧
    gaSelect [[(1:ℚ)], [(2:ℚ)]] [(5:ℚ), (3:ℚ)] (numElites 2 (1/10)) = [] ∧
    ¬ ([(2:ℚ)] ∈ gaSelect [[(1:ℚ)], [(2:ℚ)]] [(5:ℚ), (3:ℚ)] (numElites 2 (1/10))) := by
  have h0 : numElites 2 (1/10) = 0 := by norm_num [numElites]
  refine ⟨h0, ?_, ?_⟩
  · rw [h0]
    rfl
  · rw [h0]
    intro h
    simp [gaSelect] at h

/-- C5 (amended): after `select()` the elite table holds exactly
`num_elites = floor(popsize * elite_ratio)` population rows (for an
`elite_ratio` between 0 and 1), namely the rows at the indices of the
`num_elites` lowest fitness values; every elite's fitness is at most every
non-elite's fitness of that generation, and — whenever `num_elites ≥ 1` —
the best individual overall is present in the elite set. -/
theorem gaSelect_elitism (pop : List (List ℚ)) (f : List ℚ) (ratio : ℚ)
    (h0 : 0 ≤ ratio) (h1 : ratio ≤ 1) (hlen : pop.length = f.length) :
    (gaSelect pop f (numElites f.length ratio)).length = numElites f.length ratio ∧
    gaSelect pop f (numElites f.length ratio) =
      ((gaSortIndices f).take (numElites f.length ratio)).map (fun i => pop.getD i []) ∧
    (∀ i ∈ (gaSortIndices f).take (numElites f.length ratio), i < pop.length) ∧
    (∀ i ∈ (gaSortIndices f).take (numElites f.length ratio),
      ∀ j ∈ (gaSortIndices f).drop (numElites f.length ratio),
        f.getD i 0 ≤ f.getD j 0) ∧
    (1 ≤ numElites f.length ratio →
      ∃ i ∈ (gaSortIndices f).take (numElites f.length ratio),
        pop.getD i [] ∈ gaSelect pop f (numElites f.length ratio) ∧
        ∀ j < f.length, f.getD i 0 ≤ f.getD j 0) := by
  have hk := numElites_le f.length ratio h1
  have htake : (gaSortIndices f).take (numElites f.length ratio) =
      ((gaSortPairs f).take (numElites f.length ratio)).map Prod.fst := by
    unfold gaSortIndices
    rw [List.map_take]
  have hdrop : (gaSortIndices f).drop (numElites f.length ratio) =
      ((gaSortPairs f).drop (numElites f.length ratio)).map Prod.fst := by
    unfold gaSortIndices
    rw [List.map_drop]
  refine ⟨?_, rfl, ?_, ?_, ?_⟩
  · unfold gaSelect
    rw [List.length_map, List.length_take, gaSortIndices_length f]
    omega
  · intro i hi
    rw [htake] at hi
    obtain ⟨p, hp, rfl⟩ := List.mem_map.mp hi
    have hmem := mem_gaSortPairs (List.mem_of_mem_take hp)
    obtain ⟨hlt, -⟩ := List.getElem?_eq_some.mp hmem
    omega
  · intro i hi j hj
    rw [htake] at hi
    rw [hdrop] at hj
    obtain ⟨p, hp, rfl⟩ := List.mem_map.mp hi
    obtain ⟨q, hq, rfl⟩ := List.mem_map.mp hj
    rw [getD_of_mem_gaSortPairs (List.mem_of_mem_take hp),
      getD_of_mem_gaSortPairs (List.mem_of_mem_drop hq)]
    exact gaSortPairs_take_drop_le f _ p hp q hq
  · intro hone
    have hne : gaSortPairs f ≠ [] := by
      intro hnil
      have := gaSortPairs_length f
      rw [hnil] at this
      simp at this
      omega
    obtain ⟨p, rest, hcons⟩ := List.exists_cons_of_ne_nil hne
    have hp_mem_take : p ∈ (gaSortPairs f).take (numElites f.length ratio) := by
      rw [hcons]
      cases hk' : numElites f.length ratio with
      | zero => omega
      | succ k => rw [List.take_succ_cons]; exact List.mem_cons_self _ _
    refine ⟨p.1, ?_, ?_, ?_⟩
    · rw [htake]
      exact List.mem_map_of_mem Prod.fst hp_mem_take
    · unfold gaSelect
      apply List.mem_map_of_mem
      rw [htake]
      exact List.mem_map_of_mem Prod.fst hp_mem_take
    · intro j hj
      have hj_pair : ((j, f.getD j 0) : ℕ × ℚ) ∈ f.enum := by
        apply List.mem_enum_iff_getElem?.mpr
        show f[j]? = some (f.getD j 0)
        rw [List.getElem?_eq_getElem hj, List.getD_eq_getElem?_getD,
          List.getElem?_eq_getElem hj, Option.getD_some]
      have hj_mem : ((j, f.getD j 0) : ℕ × ℚ) ∈ gaSortPairs f :=
        (gaSortPairs_perm f).mem_iff.mpr hj_pair
      rw [getD_of_mem_gaSortPairs (hcons ▸ List.mem_cons_self p rest)]
      rw [hcons] at hj_mem
      rcases List.mem_cons.mp hj_mem with heq | hrest
      · rw [← heq]
      · have hsorted := gaSortPairs_sorted f
        rw [hcons] at hsorted
        exact (List.sorted_cons.mp hsorted).1 _ hrest

/-- Witness for the amended C5 at `popsize = 4`, `elite_ratio = 1/2`. -/
theorem gaSelect_elitism_witness :
    ((0:ℚ) ≤ 1/2 ∧ (1:ℚ)/2 ≤ 1 ∧
      ([[(10:ℚ)], [20], [30], [40]] : List (List ℚ)).length =
        ([(4:ℚ), 2, 3, 1] : List ℚ).length) ∧
    (gaSelect [[(10:ℚ)], [20], [30], [40]] [(4:ℚ), 2, 3, 1]
        (numElites 4 (1/2))).length = numElites 4 (1/2) ∧
    (1 ≤ numElites 4 (1/2) →
      ∃ i ∈ (gaSortIndices [(4:ℚ), 2, 3, 1]).take (numElites 4 (1/2)),
        ([[(10:ℚ)], [20], [30], [40]] : List (List ℚ)).getD i [] ∈
          gaSelect [[(10:ℚ)], [20], [30], [40]] [(4:ℚ), 2, 3, 1] (numElites 4 (1/2)) ∧
        ∀ j < ([(4:ℚ), 2, 3, 1] : List ℚ).length,
          ([(4:ℚ), 2, 3, 1] : List ℚ).getD i 0 ≤ ([(4:ℚ), 2, 3, 1] : List ℚ).getD j 0) := by
  have h := gaSelect_elitism [[(10:ℚ)], [20], [30], [40]] [(4:ℚ), 2, 3, 1] (1/2)
    (by norm_num) (by norm_num) (by decide)
  exact ⟨⟨by norm_num, by norm_num, by decide⟩, h.1, h.2.2.2.2⟩

/-! ### OpenAI-ES gradient lemmas -/

/-- Dot product against a mapped list as a zipWith sum. -/
theorem dot_map_getD (a : List (List ℚ)) (x : List ℚ) (j : ℕ) :
    dot (a.map (fun row => row.getD j 0)) x =
      (List.zipWith (fun row w => row.getD j 0 * w) a x).sum := by
  unfold dot
  rw [List.zipWith_map_left]

/-- Entry `j` of `mv(noise.t(), fitness)` is the fitness-weighted sum of
the `j`-th entries of the noise rows: the matrix-vector product against
the transpose is exactly the weighted sum of perturbation directions. -/
theorem mv_transposeM_getElem (a : List (List ℚ)) (x : List ℚ) (np j : ℕ)
    (hj : j < np) :
    (mv (transposeM np a) x)[j]? =
      some ((List.zipWith (fun row w => row.getD j 0 * w) a x).sum) := by
  unfold mv transposeM
  rw [List.getElem?_map, List.getElem?_map, List.getElem?_range hj,
    Option.map_some', Option.map_some', dot_map_getD]

/-- C6: `adapt()` computes the gradient-equivalent as the matrix-vector
product of the transposed update noise with the shaped fitness (entrywise
the fitness-weighted sum of perturbation directions), cross-node combines
it through the environment collaborator under the active gradient
synchronization mode, divides the combined gradient elementwise by
`sigma * popsize`, and only then hands its negation to the external
gradient-based update rule and re-extracts `theta` from the updated
canonical model. -/
theorem adapt_gradient_pipeline (env_sync : SyncMode → List ℚ → List ℚ)
    (opt_step : List (List ℚ) → List ℚ → List (List ℚ))
    (mode : SyncMode) (update_noise : List (List ℚ))
    (fitness_shaped : List ℚ) (sigma : ℚ) (popsize np : ℕ)
    (st : AdaptState) (j : ℕ) (hj : j < np) :
    (openAIES_adapt env_sync opt_step mode update_noise fitness_shaped sigma popsize np st).gradient =
      (env_sync mode (mv (transposeM np update_noise) fitness_shaped)).map
        (fun v => v / (sigma * (popsize : ℚ))) ∧
    (mv (transposeM np update_noise) fitness_shaped)[j]? =
      some ((List.zipWith (fun row w => row.getD j 0 * w) update_noise fitness_shaped).sum) ∧
    (openAIES_adapt env_sync opt_step mode update_noise fitness_shaped sigma popsize np st).model_adapt =
      opt_step st.model_adapt
        ((openAIES_adapt env_sync opt_step mode update_noise fitness_shaped sigma popsize np st).gradient.map
          (fun v => -v)) ∧
    (openAIES_adapt env_sync opt_step mode update_noise fitness_shaped sigma popsize np st).theta =
      update_theta_vec st.theta
        (openAIES_adapt env_sync opt_step mode update_noise fitness_shaped sigma popsize np st).model_adapt :=
  ⟨rfl, mv_transposeM_getElem update_noise fitness_shaped np j hj, rfl, rfl⟩

/-- Witness for C6 with an identity synchronizer and a fixed-point
external optimizer on a one-parameter, two-member population. -/
theorem adapt_gradient_pipeline_witness :
    (0 < 1) ∧
    ((openAIES_adapt (fun _ g => g) (fun p _ => p) SyncMode.NONE [[2], [4]] [3, 5] 1 2 1
        ⟨[0], [[6]], [0]⟩).gradient =
      ((fun (_ : SyncMode) (g : List ℚ) => g) SyncMode.NONE
          (mv (transposeM 1 [[2], [4]]) [3, 5])).map
        (fun v => v / (1 * ((2 : ℕ) : ℚ))) ∧
    (mv (transposeM 1 [[2], [4]]) [3, 5])[0]? =
      some ((List.zipWith (fun (row : List ℚ) (w : ℚ) => row.getD 0 0 * w) [[2], [4]] [3, 5]).sum) ∧
    (openAIES_adapt (fun _ g => g) (fun p _ => p) SyncMode.NONE [[2], [4]] [3, 5] 1 2 1
        ⟨[0], [[6]], [0]⟩).model_adapt =
      (fun (p : List (List ℚ)) (_ : List ℚ) => p) [[6]]
        ((openAIES_adapt (fun _ g => g) (fun p _ => p) SyncMode.NONE [[2], [4]] [3, 5] 1 2 1
            ⟨[0], [[6]], [0]⟩).gradient.map (fun v => -v)) ∧
    (openAIES_adapt (fun _ g => g) (fun p _ => p) SyncMode.NONE [[2], [4]] [3, 5] 1 2 1
        ⟨[0], [[6]], [0]⟩).theta =
      update_theta_vec [0]
        (openAIES_adapt (fun _ g => g) (fun p _ => p) SyncMode.NONE [[2], [4]] [3, 5] 1 2 1
            ⟨[0], [[6]], [0]⟩).model_adapt) :=
  ⟨by decide,
    adapt_gradient_pipeline (fun _ g => g) (fun p _ => p) SyncMode.NONE [[2], [4]] [3, 5] 1 2 1
      ⟨[0], [[6]], [0]⟩ 0 (by decide)⟩

/-! ### Construction-error lemmas -/

/-- Mapping over an `Except` result does not change whether it is an
error. -/
theorem isOk_map {ε : Type} {α β : Type} (f : α → β) (e : Except ε α) :
    (e.map f).isOk = e.isOk := by
  cases e <;> rfl

/-- C7: incompatible configuration is rejected at construction: an
`OpenAIESOptimizer` (or `SNESOptimizer`, whose constructor runs the same
code) built with `data_parallel` together with `semi_updates` or
`orthogonal_updates` errors during `__init__`, and an unsupported
distribution name (neither "Gaussian" nor "Uniform") errors during
`__init__`. -/
theorem init_config_errors (number_nodes rank : ℕ)
    (distribution sampling : String) (sigma : ℚ) (requested np : ℕ)
    (data_parallel semi_updates orthogonal_updates : Bool) :
    (data_parallel = true →
      (semi_updates = true ∨ orthogonal_updates = true) →
      (openAIESInit number_nodes rank distribution sampling sigma requested np
          data_parallel semi_updates orthogonal_updates).isOk = false ∧
      (snesInit number_nodes rank distribution sampling sigma requested np
          data_parallel semi_updates orthogonal_updates).isOk = false) ∧
    (distribution ≠ "Gaussian" → distribution ≠ "Uniform" →
      (openAIESInit number_nodes rank distribution sampling sigma requested np
          data_parallel semi_updates orthogonal_updates).isOk = false ∧
      (snesInit number_nodes rank distribution sampling sigma requested np
          data_parallel semi_updates orthogonal_updates).isOk = false) := by
  constructor
  · intro hdp hso
    subst hdp
    have hcond : (true && (orthogonal_updates || semi_updates)) = true := by
      rcases hso with h | h <;> subst h <;> simp
    have hoai : (openAIESInit number_nodes rank distribution sampling sigma requested np
        true semi_updates orthogonal_updates).isOk = false := by
      unfold openAIESInit
      simp only [hcond, if_true]
      rfl
    refine ⟨hoai, ?_⟩
    unfold snesInit
    rw [isOk_map, hoai]
  · intro hg hu
    have hoai : (openAIESInit number_nodes rank distribution sampling sigma requested np
        data_parallel semi_updates orthogonal_updates).isOk = false := by
      unfold openAIESInit
      by_cases hc : (data_parallel && (orthogonal_updates || semi_updates)) = true
      · simp only [hc, if_true]
        rfl
      · simp only [Bool.not_eq_true] at hc
        simp only [hc, Bool.false_eq_true, if_false, hg, hu, if_neg, ite_false]
        rfl
    refine ⟨hoai, ?_⟩
    unfold snesInit
    rw [isOk_map, hoai]

/-- Witness for C7: data-parallel with semi-updates errors, and a
"Cauchy" distribution errors, in both constructors. -/
theorem init_config_errors_witness :
    ((true = true ∧ (true = true ∨ false = true)) ∧
      (openAIESInit 2 0 "Gaussian" "Antithetic" (1/10) 100 3 true true false).isOk = false ∧
      (snesInit 2 0 "Gaussian" "Antithetic" (1/10) 100 3 true true false).isOk = false) ∧
    (("Cauchy" ≠ "Gaussian" ∧ "Cauchy" ≠ "Uniform") ∧
      (openAIESInit 2 0 "Cauchy" "Antithetic" (1/10) 100 3 false false false).isOk = false ∧
      (snesInit 2 0 "Cauchy" "Antithetic" (1/10) 100 3 false false false).isOk = false) :=
  ⟨⟨⟨rfl, Or.inl rfl⟩,
      (init_config_errors 2 0 "Gaussian" "Antithetic" (1/10) 100 3 true true false).1
        rfl (Or.inl rfl)⟩,
    ⟨⟨by decide, by decide⟩,
      (init_config_errors 2 0 "Cauchy" "Antithetic" (1/10) 100 3 false false false).2
        (by decide) (by decide)⟩⟩

/-! ### SNES update lemmas -/

/-- Reading an in-bounds element through `getElem?` and `getD` agree. -/
theorem getElem?_getD_of_lt (l : List ℝ) (j : ℕ) (h : j < l.length) :
    l[j]? = some (l.getD j 0) := by
  rw [List.getD_eq_getElem?_getD, List.getElem?_eq_getElem h, Option.getD_some]

/-- C2: the claim's sigma update `sigma *= exp(0.5 * lr_sigma *
sigma_gradient / popsize)` fails on the code, which applies no `popsize`
division in the exponent: with one parameter, `popsize = 2`,
`sigma = [1]` and `sigma_gradient = [1]`, the code produces
`exp(0.5 * lr_sigma)` whereas the claim demands `exp(0.5 * lr_sigma / 2)`,
and `lr_sigma = 3/5 ≠ 0` separates the two. -/
theorem update_dist_claim_counterexample :
    (update_dist 2 lr_theta (lr_sigma 1) [0] [1] ⟨[0], [1]⟩).sigma ≠
      [(1 : ℝ) * Real.exp (0.5 * lr_sigma 1 * 1 / 2)] := by
  intro h
  have hl : (update_dist 2 lr_theta (lr_sigma 1) [0] [1] ⟨[0], [1]⟩).sigma =
      [(1 : ℝ) * Real.exp (0.5 * lr_sigma 1 * 1)] := rfl
  rw [hl] at h
  simp only [List.cons.injEq, and_true, one_mul] at h
  rw [Real.exp_eq_exp] at h
  have hlr : lr_sigma 1 = 3 / 5 := by
    unfold lr_sigma
    rw [Nat.cast_one, Real.log_one, Real.sqrt_one]
    norm_num
  rw [hlr] at h
  norm_num at h

/-- C2 (amended): each `adapt()` updates the search distribution exactly
by `theta += lr_theta * (theta_gradient / popsize / sigma)` and
`sigma *= exp(0.5 * lr_sigma * sigma_gradient)` (with no `popsize`
division in the exponent), where `lr_sigma` is the constant
`(3 + ln(num_parameters)) / (5 * sqrt(num_parameters))` stored once by the
constructor. -/
theorem update_dist_formulas (popsize np : ℕ) (tg sg : List ℝ)
    (st : SNESDistState) (n j : ℕ) (hth : st.theta.length = n)
    (hsi : st.sigma.length = n) (htg : tg.length = n) (hsg : sg.length = n)
    (hj : j < n) :
    ((update_dist popsize lr_theta (lr_sigma np) tg sg st).theta)[j]? =
      some (st.theta.getD j 0 +
        lr_theta * (tg.getD j 0 / (popsize : ℝ) / st.sigma.getD j 0)) ∧
    ((update_dist popsize lr_theta (lr_sigma np) tg sg st).sigma)[j]? =
      some (st.sigma.getD j 0 * Real.exp (0.5 * lr_sigma np * sg.getD j 0)) ∧
    (∀ (number_nodes rank : ℕ) (distribution sampling : String) (sigq : ℚ)
        (requested : ℕ) (dp su ou : Bool) (s : SNESState),
      snesInit number_nodes rank distribution sampling sigq requested np dp su ou =
        Except.ok s →
      s.lr_sigma = lr_sigma np ∧ s.lr_theta = lr_theta) := by
  have h1 : st.theta[j]? = some (st.theta.getD j 0) :=
    getElem?_getD_of_lt _ _ (by omega)
  have h2 : st.sigma[j]? = some (st.sigma.getD j 0) :=
    getElem?_getD_of_lt _ _ (by omega)
  have h3 : tg[j]? = some (tg.getD j 0) := getElem?_getD_of_lt _ _ (by omega)
  have h4 : sg[j]? = some (sg.getD j 0) := getElem?_getD_of_lt _ _ (by omega)
  refine ⟨?_, ?_, ?_⟩
  · unfold update_dist
    simp only [List.getElem?_zipWith, List.getElem?_map, h1, h2, h3,
      Option.map_some']
  · unfold update_dist
    simp only [List.getElem?_zipWith, List.getElem?_map, h2, h4,
      Option.map_some']
  · intro number_nodes rank distribution sampling sigq requested dp su ou s hs
    unfold snesInit at hs
    cases hoa : openAIESInit number_nodes rank distribution sampling sigq requested np
        dp su ou with
    | error e =>
      rw [hoa] at hs
      simp [Except.map] at hs
    | ok a =>
      rw [hoa] at hs
      simp only [Except.map, Except.ok.injEq] at hs
      rw [← hs]
      exact ⟨rfl, rfl⟩

/-- Witness for the amended C2 on a one-parameter state. -/
theorem update_dist_formulas_witness :
    (([(0:ℝ)] : List ℝ).length = 1 ∧ ([(1:ℝ)] : List ℝ).length = 1 ∧ 0 < 1) ∧
    (((update_dist 1 lr_theta (lr_sigma 1) [0] [0] ⟨[0], [1]⟩).theta)[0]? =
      some (([(0:ℝ)] : List ℝ).getD 0 0 +
        lr_theta * (([(0:ℝ)] : List ℝ).getD 0 0 / ((1:ℕ) : ℝ) / ([(1:ℝ)] : List ℝ).getD 0 0)) ∧
    ((update_dist 1 lr_theta (lr_sigma 1) [0] [0] ⟨[0], [1]⟩).sigma)[0]? =
      some (([(1:ℝ)] : List ℝ).getD 0 0 *
        Real.exp (0.5 * lr_sigma 1 * ([(0:ℝ)] : List ℝ).getD 0 0))) := by
  have h := update_dist_formulas 1 1 [0] [0] ⟨[0], [1]⟩ 1 0 rfl rfl rfl rfl
    (by decide)
  exact ⟨⟨rfl, rfl, by decide⟩, h.1, h.2.1⟩

end DarwiNN
